import Mathlib

/-!
Verification of the kantek plugin manager (`kantek/utils/pluginmgr.py`).

The development shallowly embeds the plugin manager's data model and
operations.  Pure string manipulation (`Plugin.path`, `rstrip`, `relpath`)
is embedded directly; the stateful registry (`PluginManager.active_plugins`
plus the host client's handler table) is embedded as explicit state passing,
where a Python exception is modelled as an `Option String` error component
returned next to the post-state (Python side effects performed before a
raise persist, so the post-state is always returned).  Module loading and
`ast` parsing are I/O; a loaded-and-parsed source file is modelled by the
`SrcFile` tree, which records exactly the fields of the Python `ast` nodes
and loaded-module attributes that `pluginmgr.py` inspects.  The host
client's callables are modelled by `Nat` handles.
-/

set_option autoImplicit false

namespace Kantek

/-- Boolean prefix test on character lists (structurally recursive, so that
concrete instances reduce definitionally). -/
def charListPrefix : List Char → List Char → Bool
  | [], _ => true
  | _ :: _, [] => false
  | c :: cs, d :: ds => c == d && charListPrefix cs ds

/-- Python `s.startswith(pre)`. -/
def pyStartsWith (s pre : String) : Bool :=
  charListPrefix pre.data s.data

/-- Python `s.rstrip(chars)`: drops from the right end of `s` every
character contained in the set `chars` (NOT the suffix `chars`).  Used by
`Plugin.path` and `PluginManager._get_plugin_location`, which both call
`.rstrip('.py')`. -/
def pyRstrip (s : String) (chars : List Char) : String :=
  String.mk ((s.data.reverse.dropWhile (fun c => chars.contains c)).reverse)

/-- Python `s.replace('\\', '/')` for the single-character arguments used in
`Plugin.path`: character-wise replacement of backslashes by slashes. -/
def pyReplaceBackslash (s : String) : String :=
  String.mk (s.data.map (fun c => if c = '\\' then '/' else c))

/-- Modelled fragment of Python `os.path.relpath(path, start)` restricted to
the only case the plugin manager exercises: `path` is a file that lies under
the directory `start`, so the result is `path` with the `start ++ "/"`
prefix removed.  Paths outside `start` are returned unchanged (that case is
never reached by the claims below). -/
def pyRelpath (path start : String) : String :=
  if charListPrefix (start.data ++ ['/']) path.data then
    String.mk (path.data.drop (start.data.length + 1))
  else path

/-- `Plugin.path` / `PluginManager._get_plugin_location`:
`os.path.relpath(full_path, plugin_path).rstrip('.py').replace('\\', '/')`. -/
def pluginRelPath (fullPath pluginPath : String) : String :=
  pyReplaceBackslash (pyRstrip (pyRelpath fullPath pluginPath) ['.', 'p', 'y'])

/-- The `Callback` dataclass.  `callback` (a Python callable) is modelled by
an opaque `Nat` handle; `help` is `func.__doc__`, which is `None` (here
`none`) when the method has no docstring; `priv` models the `private`
field (`private` is reserved in Lean). -/
structure Callback where
  name : String
  help : Option String
  callback : Nat
  priv : Bool
deriving DecidableEq

/-- The `Plugin` dataclass.  `help` comes from `plugin_info['help']`, which
can be Python `None` (here `none`). -/
structure Plugin where
  name : String
  help : Option String
  callbacks : List Callback
  fullPath : String
  pluginPath : String
  version : String
deriving DecidableEq

/-- The `Plugin.path` property: the plugin path relative to the plugin
folder, as computed by the source. -/
def Plugin.path (p : Plugin) : String :=
  pluginRelPath p.fullPath p.pluginPath

/-- `PluginManager.__is_private`.  The two arguments are the results of
`keywords.get('incoming')` and `keywords.get('outgoing')`; `none` models
Python `None` (key absent, or present with value `None`). -/
def isPrivate (incoming outgoing : Option Bool) : Bool :=
  let isPrivate0 := false
  let isPrivate1 :=
    match incoming with
    | some b => !b
    | none => isPrivate0
  match outgoing with
  | some b => b
  | none => isPrivate1

/-- Python `dict.get(k)` over the keyword dictionary built by
`__get_keywords` / `__get_event_decorator_keywords`.  The dictionary is
modelled as the sequence of `update` writes, so the last write to a key
wins; a key that was never written yields `none` (Python `None`), exactly
like a key written with value `None`. -/
def dictGet (kws : List (String × Option Bool)) (k : String) : Option Bool :=
  match kws.reverse.find? (fun e => e.1 = k) with
  | some e => e.2
  | none => none

/-- One decorator in `func.decorator_list`, seen through
`__get_event_decorator_keywords`: `funcValueId` is `decorator.func.value.id`
and `args` holds, for each argument call of the decorator (e.g. the
`NewMessage(...)` call), the list of its keyword arguments whose values are
`ast.NameConstant`s (`True`/`False`/`None`), in source order.  Non-constant
keywords (such as `pattern=f'...'`) are, as in `__get_keywords`, absent. -/
structure EventDecorator where
  funcValueId : String
  args : List (List (String × Option Bool))

/-- `PluginManager.__get_event_decorator_keywords`: collect the keyword
writes of every decorator whose `func.value.id` is `'events'`. -/
def getEventDecoratorKeywords (decorators : List EventDecorator) : List (String × Option Bool) :=
  decorators.foldl
    (fun acc d =>
      if d.funcValueId = "events" then acc ++ d.args.foldl (fun a kws => a ++ kws) []
      else acc) []

/-- `__is_private` applied to the decorator keyword dictionary, as done in
`_get_plugin_callbacks`. -/
def isPrivateKw (kws : List (String × Option Bool)) : Bool :=
  isPrivate (dictGet kws "incoming") (dictGet kws "outgoing")

/-- A method of a plugin class as `_get_plugin_callbacks` sees it:
`name` and `isAsync` come from the `ast.AsyncFunctionDef` node (`isAsync`
records whether the node IS an `AsyncFunctionDef`), `isHandler` is
`events.is_handler(func)` on the loaded attribute, `doc` is `func.__doc__`
(`none` for Python `None`), `handleId` models the function object, and
`decorators` is the node's `decorator_list`. -/
structure SrcMethod where
  name : String
  isAsync : Bool
  isHandler : Bool
  doc : Option String
  handleId : Nat
  decorators : List EventDecorator

/-- A top-level class as the plugin manager sees it: `name` from the
`ast.ClassDef`, `numBases` the length of `item.bases`, `isKantekPlugin` the
result of `issubclass(plugin, KantekPlugin)` on the loaded class,
`attrName`/`attrHelp` the resolved `plugin.name`/`plugin.help` attributes
(inheritance included; the base `KantekPlugin` declares `name = None` and
`help = None`, so a class that does not override them resolves to `none`). -/
structure SrcClass where
  name : String
  numBases : Nat
  isKantekPlugin : Bool
  attrName : Option String
  attrHelp : Option String
  methods : List SrcMethod

/-- One item of the module body (`tree.body`): a module-level assignment
with a single `Name` target and a string literal value, a class definition,
or anything else (imports, expressions, ...). -/
inductive SrcItem where
  | assign (targetId : String) (valueStr : String)
  | classDef (c : SrcClass)
  | other

/-- A successfully loaded and parsed plugin source file. -/
structure SrcFile where
  items : List SrcItem

/-- The body of the class filter shared by `_get_plugin_callbacks` and
`_get_plugin_info`: a `ClassDef` whose name does not start with `_`, with
at least one base, whose loaded class is a subclass of `KantekPlugin`. -/
def classQualifies (c : SrcClass) : Bool :=
  !pyStartsWith c.name "_" && decide (c.numBases ≠ 0) && c.isKantekPlugin

/-- `PluginManager._get_plugin_callbacks` on a loaded-and-parsed file:
for each qualifying class, each `AsyncFunctionDef` whose loaded attribute
is an event handler yields a `Callback` with the method name, its
docstring, its handle, and the computed privacy flag. -/
def getPluginCallbacks (f : SrcFile) : List Callback :=
  f.items.foldl
    (fun cbs item =>
      match item with
      | .classDef c =>
        if classQualifies c then
          cbs ++ c.methods.foldl
            (fun acc m =>
              if m.isAsync && m.isHandler then
                acc ++ [⟨m.name, m.doc, m.handleId,
                         isPrivateKw (getEventDecoratorKeywords m.decorators)⟩]
              else acc) []
        else cbs
      | _ => cbs) []

/-- The dictionary returned by `_get_plugin_info`.  `name` and `help` can
be Python `None` (the variables are initialised to `''`, i.e. `some ""`,
but are overwritten with the resolved class attributes, which are `None`
for a class inheriting them from `KantekPlugin`). -/
structure PluginInfo where
  version : String
  name : Option String
  help : Option String
deriving DecidableEq

/-- `PluginManager._get_plugin_info` on a loaded-and-parsed file. -/
def getPluginInfo (f : SrcFile) : PluginInfo :=
  f.items.foldl
    (fun info item =>
      match item with
      | .assign targetId valueStr =>
        if targetId = "__version__" then { info with version := valueStr } else info
      | .classDef c =>
        if classQualifies c then { info with name := c.attrName, help := c.attrHelp }
        else info
      | .other => info)
    ⟨"", some "", some ""⟩

/-- Remove the first element of `xs` equal to `a`; `none` when `a` does not
occur.  This is Python `list.remove` (which raises `ValueError` in the
`none` case). -/
def listRemove {α : Type} [DecidableEq α] : List α → α → Option (List α)
  | [], _ => none
  | x :: t, a => if x = a then some t else (listRemove t a).map (fun r => x :: r)

/-- Modelled from the spec: the host client's handler table
(`TelegramClient`, external to the repository; spec section 6 gives only
`addEventHandler`/`removeEventHandler`).  The table is a list of handles;
`add_event_handler` appends. -/
def addEventHandler (handlers : List Nat) (h : Nat) : List Nat :=
  handlers ++ [h]

/-- Modelled from the spec: the host client's `remove_event_handler`,
which removes a matching table entry for the given callable and is a no-op
on an unknown handler (spec section 6 leaves the unknown-handler case to the
implementer: "no-op or explicit error"). -/
def removeEventHandler (handlers : List Nat) (h : Nat) : List Nat :=
  match listRemove handlers h with
  | some r => r
  | none => handlers

/-- The mutable state the plugin manager acts on: the process-wide
`active_plugins` list plus the host client's handler table. -/
structure PMState where
  activePlugins : List Plugin
  clientHandlers : List Nat
deriving DecidableEq

/-- The state before any registration. -/
def initialState : PMState := ⟨[], []⟩

/-- One entry of `_get_plugin_list`'s result, together with what loading
and parsing the file yields: `Except.error e` models `load_module()` or
`ast.parse` raising (syntax error, failing top-level code), `Except.ok f`
a successful load. -/
structure DiscoveredFile where
  moduleName : String
  path : String
  loadResult : Except String SrcFile

/-- One iteration of the `register_all` loop for a discovered file: load
for `_get_plugin_info`, load for `_get_plugin_callbacks`, add an event
handler per callback, append the `Plugin` record (built from the SCANNER's
module name, `plugin_info['help']`, the callbacks, the path, the plugin
root and `plugin_info['version']`).  A raise during loading propagates:
the error is returned and the state is left as it was. -/
def registerFile (pluginRoot : String) (st : PMState) (d : DiscoveredFile) :
    PMState × Option String :=
  match d.loadResult with
  | .error e => (st, some e)
  | .ok f =>
    let info := getPluginInfo f
    let cbs := getPluginCallbacks f
    (⟨st.activePlugins ++ [⟨d.moduleName, info.help, cbs, d.path, pluginRoot, info.version⟩],
      cbs.foldl (fun acc cb => addEventHandler acc cb.callback) st.clientHandlers⟩,
     none)

/-- `PluginManager.register_all`, with the scanner's output supplied as
`ds`: process the discovered files in order; an exception raised while
processing one file propagates out of `register_all`, keeping the plugins
registered so far and processing no further file. -/
def registerAllRun (pluginRoot : String) : List DiscoveredFile → PMState → PMState × Option String
  | [], st => (st, none)
  | d :: rest, st =>
    match registerFile pluginRoot st d with
    | (st', none) => registerAllRun pluginRoot rest st'
    | (st', some e) => (st', some e)

/-- `PluginManager.unregister_plugin`: first remove an event handler for
EVERY callback of the argument, then `active_plugins.remove(plugin)`, which
raises `ValueError` when no equal plugin is active — in that case the
handler removals have already happened, so the returned state keeps them
while the registry is unchanged. -/
def unregisterPluginRun (p : Plugin) (st : PMState) : PMState × Option String :=
  let handlers := p.callbacks.foldl (fun acc cb => removeEventHandler acc cb.callback)
    st.clientHandlers
  match listRemove st.activePlugins p with
  | some rest => (⟨rest, handlers⟩, none)
  | none => (⟨st.activePlugins, handlers⟩, some "ValueError")

/-- The `for plugin in self.active_plugins` loop of `unregister_all`,
with Python's list-iterator semantics made explicit: the iterator keeps an
index `i` into the LIVE list, stops as soon as `i` reaches the current
length, and `unregister_plugin` inside the body mutates that same list.
`fuel` bounds the iteration count; `unregisterAllRun` supplies enough. -/
def unregisterAllAux (builtins : Bool) : Nat → Nat → PMState → PMState
  | 0, _, st => st
  | fuel + 1, i, st =>
    if h : i < st.activePlugins.length then
      if builtins then
        unregisterAllAux builtins fuel (i + 1)
          (unregisterPluginRun (st.activePlugins.get ⟨i, h⟩) st).1
      else
        if !pyStartsWith (st.activePlugins.get ⟨i, h⟩).path "builtins/" then
          unregisterAllAux builtins fuel (i + 1)
            (unregisterPluginRun (st.activePlugins.get ⟨i, h⟩) st).1
        else
          unregisterAllAux builtins fuel (i + 1) st
    else st

/-- `PluginManager.unregister_all`.  The index strictly increases and the
list never grows, so the loop performs at most `activePlugins.length`
iterations; that is the fuel supplied. -/
def unregisterAllRun (builtins : Bool) (st : PMState) : PMState :=
  unregisterAllAux builtins st.activePlugins.length 0 st

/-- Modelled from the spec: the spec's words for the derived relative path
say "extension stripped", i.e. the trailing `.ext` component removed (what
`os.path.splitext` would strip).  Stated here only for comparison with the
source's `rstrip`-based computation. -/
def stripExt (s : String) : String :=
  if s.data.contains '.' then
    String.mk (((s.data.reverse.dropWhile (fun c => c != '.')).drop 1).reverse)
  else s

/-- Modelled from the spec: `full_path` relative to `plugin_root`,
extension stripped, path separators normalized to `/`. -/
def specRelativePath (fullPath pluginRoot : String) : String :=
  pyReplaceBackslash (stripExt (pyRelpath fullPath pluginRoot))

/-- The `ping` method of `plugins/ping.py`: async, an event handler, with
docstring `"Play ping pong 🏓"`, decorated by
`@events.register(NewMessage(outgoing=True, pattern=f'{cmd_prefix}ping'))`
(the `pattern` keyword is an f-string, not a `NameConstant`, so only
`outgoing=True` survives `__get_keywords`). -/
def pingMethod : SrcMethod :=
  ⟨"ping", true, true, some "Play ping pong 🏓", 0,
   [⟨"events", [[("outgoing", some true)]]⟩]⟩

/-- The `Ping` class of `plugins/ping.py`: subclass of `KantekPlugin`, one
base, `name = 'Ping'`, `help = 'Some help message'`. -/
def pingClass : SrcClass :=
  ⟨"Ping", 1, true, some "Ping", some "Some help message", [pingMethod]⟩

/-- `plugins/ping.py` as loaded and parsed: four import statements followed
by the `Ping` class definition; no module-level `__version__`. -/
def pingFile : SrcFile :=
  ⟨[.other, .other, .other, .other, .classDef pingClass]⟩

/-- The scanner's entry for `plugins/ping.py` under the plugin root
`/abs/plugins`, loading successfully. -/
def pingEntry : DiscoveredFile :=
  ⟨"ping", "/abs/plugins/ping.py", .ok pingFile⟩

/-- The `Plugin` record that registering `pingEntry` produces (established
by the C3 theorems below). -/
def pingPlugin : Plugin :=
  ⟨"ping", some "Some help message", [⟨"ping", some "Play ping pong 🏓", 0, true⟩],
   "/abs/plugins/ping.py", "/abs/plugins", ""⟩

/-- A second registered plugin, used for states with two active plugins. -/
def pongPlugin : Plugin :=
  ⟨"pong", none, [⟨"pong", none, 1, false⟩],
   "/abs/plugins/pong.py", "/abs/plugins", ""⟩

/-- A `Plugin` value that is NOT in the active list after registering
`pingEntry` (its `name` differs from `pingPlugin`'s, so dataclass equality
fails) but shares `pingPlugin`'s callback handle. -/
def roguePlugin : Plugin :=
  ⟨"other", some "Some help message", [⟨"ping", some "Play ping pong 🏓", 0, true⟩],
   "/abs/plugins/ping.py", "/abs/plugins", ""⟩

/-- A discovered file that raises while being loaded or parsed. -/
def badEntry : DiscoveredFile :=
  ⟨"bad", "/r/bad.py", .error "SyntaxError"⟩

/-- A plugin class that declares neither `name` nor `help`, so both resolve
to the `None` defaults inherited from `KantekPlugin`. -/
def noMetaClass : SrcClass :=
  ⟨"Thing", 1, true, none, none, []⟩

/-- A source file containing only `noMetaClass` and no version string. -/
def noMetaFile : SrcFile :=
  ⟨[.classDef noMetaClass]⟩

/-- The `Plugin` record `register_all` builds for one successfully loaded
file (scanner name, extracted help, callbacks, path, root, version). -/
def mkPlugin (pluginRoot : String) (d : DiscoveredFile) (f : SrcFile) : Plugin :=
  ⟨d.moduleName, (getPluginInfo f).help, getPluginCallbacks f, d.path, pluginRoot,
   (getPluginInfo f).version⟩

/-- The plugins a list of discovered files contributes on a successful
pass, in discovery order. -/
def pluginsOf (pluginRoot : String) (ds : List DiscoveredFile) : List Plugin :=
  ds.filterMap (fun d =>
    match d.loadResult with
    | .ok f => some (mkPlugin pluginRoot d f)
    | .error _ => none)

/-- The handler-table entries those plugins contribute, in order. -/
def handlersOf (pluginRoot : String) (ds : List DiscoveredFile) : List Nat :=
  ((pluginsOf pluginRoot ds).map (fun p => p.callbacks.map Callback.callback)).flatten

/-- Every discovered file loads and parses successfully. -/
def allOk (ds : List DiscoveredFile) : Prop :=
  ∀ d ∈ ds, ∃ f, d.loadResult = Except.ok f

/-- Occurrences of handle `h` among a callback list. -/
def cbCount (cbs : List Callback) (h : Nat) : Nat :=
  cbs.countP (fun cb => cb.callback = h)

/-- Occurrences of handle `h` in the client handler table. -/
def tblCount (handlers : List Nat) (h : Nat) : Nat :=
  handlers.countP (fun x => x = h)

/-- Occurrences of handle `h` across all callbacks of all active plugins. -/
def registryCount (ps : List Plugin) (h : Nat) : Nat :=
  (ps.map (fun p => cbCount p.callbacks h)).sum

/-- The multiset form of the registry/handler-table correspondence: each
handle occurs in the client table exactly as often as it occurs among the
active plugins' callbacks. -/
def MInv (st : PMState) : Prop :=
  ∀ h, tblCount st.clientHandlers h = registryCount st.activePlugins h

/-- The invariant claimed by the spec, decidably: every callback of an
active plugin has an entry in the client handler table, and every table
entry is the callback of some active plugin. -/
def Invb (st : PMState) : Bool :=
  (st.activePlugins.all (fun p =>
    p.callbacks.all (fun cb => st.clientHandlers.any (fun h => h = cb.callback)))) &&
  (st.clientHandlers.all (fun h =>
    st.activePlugins.any (fun p => p.callbacks.any (fun cb => cb.callback = h))))

/-- Registry states reachable by the manager's operations when
`unregister_plugin` is only ever invoked on a plugin that is present in the
active list. -/
inductive ReachableR : PMState → Prop where
  | init : ReachableR initialState
  | registerAll (pluginRoot : String) (ds : List DiscoveredFile) (st : PMState) :
      ReachableR st → ReachableR (registerAllRun pluginRoot ds st).1
  | unregisterPlugin (p : Plugin) (st : PMState) :
      ReachableR st → p ∈ st.activePlugins → ReachableR (unregisterPluginRun p st).1
  | unregisterAll (builtins : Bool) (st : PMState) :
      ReachableR st → ReachableR (unregisterAllRun builtins st)

/-- Registry states reachable by arbitrary sequences of the manager's
operations, `unregister_plugin` with any `Plugin` argument included (the
post-state of a raising call is reachable, since Python keeps the side
effects performed before the raise). -/
inductive ReachableAny : PMState → Prop where
  | init : ReachableAny initialState
  | registerAll (pluginRoot : String) (ds : List DiscoveredFile) (st : PMState) :
      ReachableAny st → ReachableAny (registerAllRun pluginRoot ds st).1
  | unregisterPlugin (p : Plugin) (st : PMState) :
      ReachableAny st → ReachableAny (unregisterPluginRun p st).1
  | unregisterAll (builtins : Bool) (st : PMState) :
      ReachableAny st → ReachableAny (unregisterAllRun builtins st)

theorem listRemove_eq_none {α : Type} [DecidableEq α] (xs : List α) (a : α) :
    listRemove xs a = none ↔ a ∉ xs := by
  induction xs with
  | nil => simp [listRemove]
  | cons x t ih =>
    by_cases hx : x = a
    · subst hx; simp [listRemove]
    · simp [listRemove, hx, Option.map_eq_none', ih, Ne.symm hx]

theorem listRemove_some_decomp {α : Type} [DecidableEq α] (xs r : List α) (a : α)
    (hr : listRemove xs a = some r) : ∃ l1 l2, xs = l1 ++ a :: l2 ∧ r = l1 ++ l2 := by
  induction xs generalizing r with
  | nil => simp [listRemove] at hr
  | cons x t ih =>
    by_cases hx : x = a
    · subst hx
      simp [listRemove] at hr
      exact ⟨[], t, rfl, hr.symm⟩
    · simp [listRemove, hx, Option.map_eq_some'] at hr
      obtain ⟨r', hr', hxr⟩ := hr
      obtain ⟨l1, l2, h1, h2⟩ := ih r' hr'
      exact ⟨x :: l1, l2, by simp [h1], by simp [← hxr, h2]⟩

theorem countP_listRemove {α : Type} [DecidableEq α] (q : α → Bool) (xs r : List α) (a : α)
    (hr : listRemove xs a = some r) :
    r.countP q + (if q a then 1 else 0) = xs.countP q := by
  obtain ⟨l1, l2, h1, h2⟩ := listRemove_some_decomp xs r a hr
  subst h1; subst h2
  simp [List.countP_append, List.countP_cons]
  omega

theorem foldl_addEventHandler (cbs : List Callback) (hs : List Nat) :
    cbs.foldl (fun acc cb => addEventHandler acc cb.callback) hs
      = hs ++ cbs.map Callback.callback := by
  induction cbs generalizing hs with
  | nil => simp
  | cons cb rest ih =>
    rw [List.foldl_cons, ih]
    simp [addEventHandler]

theorem tblCount_append (hs1 hs2 : List Nat) (h : Nat) :
    tblCount (hs1 ++ hs2) h = tblCount hs1 h + tblCount hs2 h := by
  simp [tblCount, List.countP_append]

theorem tblCount_map_callback (cbs : List Callback) (h : Nat) :
    tblCount (cbs.map Callback.callback) h = cbCount cbs h := by
  simp only [tblCount, cbCount, List.countP_map]
  rfl

theorem registryCount_append (ps1 ps2 : List Plugin) (h : Nat) :
    registryCount (ps1 ++ ps2) h = registryCount ps1 h + registryCount ps2 h := by
  simp [registryCount]

theorem cbCount_le_registryCount (p : Plugin) (ps : List Plugin) (h : Nat)
    (hmem : p ∈ ps) : cbCount p.callbacks h ≤ registryCount ps h := by
  induction ps with
  | nil => simp at hmem
  | cons q t ih =>
    rcases List.mem_cons.mp hmem with hq | ht
    · subst hq
      simp [registryCount]
    · have := ih ht
      simp [registryCount, List.sum_cons] at this ⊢
      omega

theorem tblCount_removeEventHandler (hs : List Nat) (g h : Nat) (hmem : g ∈ hs) :
    tblCount (removeEventHandler hs g) h + (if g = h then 1 else 0) = tblCount hs h := by
  cases heq : listRemove hs g with
  | none => exact absurd hmem ((listRemove_eq_none hs g).mp heq)
  | some r =>
    have hc := countP_listRemove (fun x => x = h) hs r g heq
    simp only [removeEventHandler, heq, tblCount]
    simpa using hc

theorem tblCount_fold_remove (cbs : List Callback) (hs : List Nat) (h : Nat)
    (hge : ∀ h', cbCount cbs h' ≤ tblCount hs h') :
    tblCount (cbs.foldl (fun acc cb => removeEventHandler acc cb.callback) hs) h
      + cbCount cbs h = tblCount hs h := by
  induction cbs generalizing hs with
  | nil => simp [cbCount]
  | cons cb rest ih =>
    have hmem : cb.callback ∈ hs := by
      have h1 : 0 < cbCount (cb :: rest) cb.callback := by
        simp [cbCount, List.countP_cons]
      have h2 : 0 < tblCount hs cb.callback := lt_of_lt_of_le h1 (hge cb.callback)
      simp only [tblCount] at h2
      obtain ⟨x, hx, he⟩ := List.countP_pos_iff.mp h2
      simp at he
      exact he ▸ hx
    have hge' : ∀ h', cbCount rest h' ≤ tblCount (removeEventHandler hs cb.callback) h' := by
      intro h'
      have e1 := tblCount_removeEventHandler hs cb.callback h' hmem
      have e2 := hge h'
      by_cases hcb : cb.callback = h' <;>
        simp [cbCount, List.countP_cons, hcb] at e1 e2 ⊢ <;> omega
    have ihr := ih (removeEventHandler hs cb.callback) hge'
    have e1 := tblCount_removeEventHandler hs cb.callback h hmem
    simp only [List.foldl_cons]
    by_cases hcb : cb.callback = h <;>
      simp [cbCount, List.countP_cons, hcb] at e1 ihr ⊢ <;> omega

theorem registryCount_listRemove (ps r : List Plugin) (p : Plugin) (h : Nat)
    (hr : listRemove ps p = some r) :
    registryCount r h + cbCount p.callbacks h = registryCount ps h := by
  obtain ⟨l1, l2, h1, h2⟩ := listRemove_some_decomp ps r p hr
  subst h1; subst h2
  simp [registryCount, List.sum_append]
  omega

theorem MInv_initialState : MInv initialState := by
  intro h
  simp [MInv, initialState, tblCount, registryCount]

theorem MInv_registerFile (root : String) (st : PMState) (d : DiscoveredFile)
    (h : MInv st) : MInv (registerFile root st d).1 := by
  cases hd : d.loadResult with
  | error e => simpa [registerFile, hd] using h
  | ok f =>
    intro hh
    have hst := h hh
    simp [registerFile, hd, foldl_addEventHandler, tblCount_append, tblCount_map_callback,
          registryCount_append, registryCount]
    simp [registryCount] at hst
    omega

theorem MInv_registerAllRun (root : String) (ds : List DiscoveredFile) (st : PMState)
    (h : MInv st) : MInv (registerAllRun root ds st).1 := by
  induction ds generalizing st with
  | nil => simpa [registerAllRun] using h
  | cons d rest ih =>
    have h1 := MInv_registerFile root st d h
    cases hd : d.loadResult with
    | error e => simpa [registerAllRun, registerFile, hd] using h
    | ok f =>
      simp only [registerAllRun, registerFile, hd]
      apply ih
      simpa [registerFile, hd] using h1

theorem MInv_unregisterPluginRun (p : Plugin) (st : PMState)
    (hmem : p ∈ st.activePlugins) (h : MInv st) : MInv (unregisterPluginRun p st).1 := by
  cases hr : listRemove st.activePlugins p with
  | none => exact absurd hmem ((listRemove_eq_none _ _).mp hr)
  | some r =>
    intro hh
    have hge : ∀ h', cbCount p.callbacks h' ≤ tblCount st.clientHandlers h' := by
      intro h'
      rw [h h']
      exact cbCount_le_registryCount p _ h' hmem
    have e1 := tblCount_fold_remove p.callbacks st.clientHandlers hh hge
    have e2 := registryCount_listRemove st.activePlugins r p hh hr
    have e3 := h hh
    simp [unregisterPluginRun, hr]
    omega

theorem MInv_unregisterAllAux (b : Bool) (fuel : Nat) : ∀ (i : Nat) (st : PMState),
    MInv st → MInv (unregisterAllAux b fuel i st) := by
  induction fuel with
  | zero => intro i st h; simpa [unregisterAllAux] using h
  | succ n ih =>
    intro i st h
    rw [unregisterAllAux]
    split
    · split
      · exact ih _ _ (MInv_unregisterPluginRun _ st (List.get_mem _ _ _) h)
      · split
        · exact ih _ _ (MInv_unregisterPluginRun _ st (List.get_mem _ _ _) h)
        · exact ih _ _ h
    · exact h

theorem MInv_of_reachableR (st : PMState) (h : ReachableR st) : MInv st := by
  induction h with
  | init => exact MInv_initialState
  | registerAll root ds st' _ ih => exact MInv_registerAllRun root ds st' ih
  | unregisterPlugin p st' _ hmem ih => exact MInv_unregisterPluginRun p st' hmem ih
  | unregisterAll b st' _ ih =>
    simpa [unregisterAllRun] using MInv_unregisterAllAux b st'.activePlugins.length 0 st' ih

theorem sum_map_pos {α : Type} (l : List α) (f : α → Nat) (h : 0 < (l.map f).sum) :
    ∃ x ∈ l, 0 < f x := by
  induction l with
  | nil => simp at h
  | cons a t ih =>
    simp only [List.map_cons, List.sum_cons] at h
    by_cases ha : 0 < f a
    · exact ⟨a, by simp, ha⟩
    · have ht : 0 < (t.map f).sum := by omega
      obtain ⟨x, hx, hfx⟩ := ih ht
      exact ⟨x, by simp [hx], hfx⟩

theorem Invb_of_MInv (st : PMState) (h : MInv st) : Invb st = true := by
  simp only [Invb, Bool.and_eq_true, List.all_eq_true, List.any_eq_true]
  constructor
  · intro p hp cb hcb
    have h1 : 0 < cbCount p.callbacks cb.callback := by
      simp only [cbCount]
      exact List.countP_pos_iff.mpr ⟨cb, hcb, by simp⟩
    have h2 : 0 < tblCount st.clientHandlers cb.callback := by
      rw [h cb.callback]
      exact lt_of_lt_of_le h1 (cbCount_le_registryCount p _ _ hp)
    simp only [tblCount] at h2
    obtain ⟨x, hx, he⟩ := List.countP_pos_iff.mp h2
    exact ⟨x, hx, he⟩
  · intro hh hmem
    have h2 : 0 < tblCount st.clientHandlers hh := by
      simp only [tblCount]
      exact List.countP_pos_iff.mpr ⟨hh, hmem, by simp⟩
    rw [h hh] at h2
    simp only [registryCount] at h2
    obtain ⟨p, hp, hcp⟩ := sum_map_pos _ _ h2
    simp only [cbCount] at hcp
    obtain ⟨cb, hcb, he⟩ := List.countP_pos_iff.mp hcp
    exact ⟨p, hp, cb, hcb, he⟩

theorem registerAllRun_allOk (root : String) (ds : List DiscoveredFile) (st : PMState)
    (h : allOk ds) :
    registerAllRun root ds st =
      (⟨st.activePlugins ++ pluginsOf root ds, st.clientHandlers ++ handlersOf root ds⟩,
       none) := by
  induction ds generalizing st with
  | nil => simp [registerAllRun, pluginsOf, handlersOf]
  | cons d rest ih =>
    obtain ⟨f, hf⟩ := h d (by simp)
    have hrest : allOk rest := fun d' hd' => h d' (by simp [hd'])
    rw [registerAllRun]
    simp only [registerFile, hf]
    rw [ih _ hrest]
    simp [pluginsOf, handlersOf, hf, mkPlugin, foldl_addEventHandler, List.append_assoc]

theorem pluginsOf_length (root : String) (ds : List DiscoveredFile) (h : allOk ds) :
    (pluginsOf root ds).length = ds.length := by
  induction ds with
  | nil => rfl
  | cons d rest ih =>
    obtain ⟨f, hf⟩ := h d (by simp)
    have hrest : allOk rest := fun d' hd' => h d' (by simp [hd'])
    simp [pluginsOf, List.filterMap_cons, hf, ← ih hrest]

/-- C1: the claim states that the derived relative path equals the relative
path with the file EXTENSION stripped.  The code strips the trailing
character SET `{'.', 'p', 'y'}` via `str.rstrip`, which agrees with the
claim on `fun/ping.py` but not in general: at `/r/fun/happy.py` under root
`/r` the code yields `fun/ha` while an extension strip yields `fun/happy`. -/
theorem c1_rstrip_not_extension_strip :
    pluginRelPath "/r/fun/ping.py" "/r" = "fun/ping" ∧
    pluginRelPath "/r/fun/happy.py" "/r" = "fun/ha" ∧
    specRelativePath "/r/fun/happy.py" "/r" = "fun/happy" ∧
    pluginRelPath "/r/fun/happy.py" "/r" ≠ specRelativePath "/r/fun/happy.py" "/r" :=
  ⟨rfl, rfl, rfl, by decide⟩

/-- C2: the privacy classification of a callback.  The first conjunct is
the override step (`outgoing` present forces `private = outgoing`,
regardless of `incoming`, so `outgoing = true` always yields private); the
second is the `incoming` step when no `outgoing` is present (in particular
`incoming = false` yields private); the last is absence of both. -/
theorem c2_privacy_classification :
    (∀ inc : Option Bool, ∀ b : Bool, isPrivate inc (some b) = b) ∧
    (∀ b : Bool, isPrivate (some b) none = !b) ∧
    isPrivate (some false) none = true ∧
    isPrivate none none = false := by
  refine ⟨?_, ?_, rfl, rfl⟩ <;> decide

/-- C3 counterexample: registering the modelled `plugins/ping.py` produces
a Plugin whose `name` is `"ping"` (the scanner's module name, i.e. the file
stem), not `"Ping"` as the claim states. -/
theorem c3_counterexample_plugin_name :
    ((registerAllRun "/abs/plugins" [pingEntry] initialState).1.activePlugins.map Plugin.name
      = ["ping"]) ∧ ("ping" : String) ≠ "Ping" :=
  ⟨rfl, by decide⟩

/-- C3 (amended): registering a directory containing exactly `ping.py`
produces exactly one Plugin with relative path `"ping"` and name `"ping"`
(the file stem — `register_all` discards the extracted class name), holding
exactly one Callback named `"ping"` with `private = true`; exactly one
handler is added to the host client. -/
theorem c3_register_ping_pipeline :
    registerAllRun "/abs/plugins" [pingEntry] initialState = (⟨[pingPlugin], [0]⟩, none) ∧
    pingPlugin.path = "ping" ∧
    pingPlugin.name = "ping" ∧
    pingPlugin.callbacks.map Callback.name = ["ping"] ∧
    pingPlugin.callbacks.map Callback.priv = [true] :=
  ⟨rfl, rfl, rfl, rfl, rfl⟩

/-- C4: `unregister_all(true)` on a state with two active plugins.  The
loop iterates the LIVE list while `unregister_plugin` removes from it, so
the iterator skips the second plugin: it stays registered and its handler
stays in the client table, contradicting the claim that the active list is
left empty and every handler removed. -/
theorem c4_unregister_all_skips_second :
    unregisterAllRun true ⟨[pingPlugin, pongPlugin], [0, 1]⟩ = ⟨[pongPlugin], [1]⟩ ∧
    ([pongPlugin] : List Plugin) ≠ [] :=
  ⟨rfl, by simp⟩

/-- C5 counterexample: a file that raises while loading (`badEntry`) ABORTS
the discovery pass — the later, perfectly fine `pingEntry` is never
registered and the exception propagates, contradicting the claim that the
failing file is skipped and discovery continues. -/
theorem c5_counterexample_abort :
    (registerAllRun "/r" [badEntry, pingEntry] initialState).1.activePlugins = [] ∧
    (registerAllRun "/r" [badEntry, pingEntry] initialState).2 = some "SyntaxError" :=
  ⟨rfl, rfl⟩

/-- C5 (amended): a candidate file that fails to parse or whose top-level
execution raises aborts the discovery pass: files before it stay
registered, the exception propagates out of `register_all`, and the
remaining candidates are not processed at all. -/
theorem c5_error_aborts_pass (root : String) (st : PMState) (pre : List DiscoveredFile)
    (n p e : String) (post : List DiscoveredFile) (h : allOk pre) :
    registerAllRun root (pre ++ ⟨n, p, Except.error e⟩ :: post) st =
      (⟨st.activePlugins ++ pluginsOf root pre, st.clientHandlers ++ handlersOf root pre⟩,
       some e) := by
  induction pre generalizing st with
  | nil => simp [registerAllRun, registerFile, pluginsOf, handlersOf]
  | cons d rest ih =>
    obtain ⟨f, hf⟩ := h d (by simp)
    have hrest : allOk rest := fun d' hd' => h d' (by simp [hd'])
    rw [List.cons_append, registerAllRun]
    simp only [registerFile, hf]
    rw [ih _ hrest]
    simp [pluginsOf, handlersOf, hf, mkPlugin, foldl_addEventHandler, List.append_assoc]

/-- Witness for C5's theorem at a concrete input: one good file before the
failing one, one good file after it. -/
theorem c5_error_aborts_pass_witness :
    allOk [pingEntry] ∧
    registerAllRun "/abs/plugins"
        ([pingEntry] ++ (⟨"bad", "/r/bad.py", Except.error "SyntaxError"⟩ : DiscoveredFile)
          :: [pingEntry]) initialState =
      (⟨initialState.activePlugins ++ pluginsOf "/abs/plugins" [pingEntry],
        initialState.clientHandlers ++ handlersOf "/abs/plugins" [pingEntry]⟩,
       some "SyntaxError") := by
  have h : allOk [pingEntry] := by
    intro d hd
    rw [List.mem_singleton] at hd
    subst hd
    exact ⟨pingFile, rfl⟩
  exact ⟨h, c5_error_aborts_pass "/abs/plugins" initialState [pingEntry]
    "bad" "/r/bad.py" "SyntaxError" [pingEntry] h⟩

/-- C6 counterexample: for a qualifying plugin class that declares neither
`name` nor `help` (and a file with no version assignment), metadata
extraction yields `version = ''` but `name = None` and `help = None` — the
inherited `KantekPlugin` defaults — not the empty string the claim
states. -/
theorem c6_counterexample_none_not_empty :
    (getPluginInfo noMetaFile).name = none ∧
    (getPluginInfo noMetaFile).help = none ∧
    (getPluginInfo noMetaFile).version = "" ∧
    (getPluginInfo noMetaFile).name ≠ some "" :=
  ⟨rfl, rfl, rfl, fun hcontra => Option.noConfusion hcontra⟩

/-- C6 (amended): for a source file whose single top-level item is a
qualifying plugin class with no declared `name`/`help` (so both resolve to
the base class's `None`) and no version assignment, metadata extraction
returns the empty string for the missing version and Python `None` for the
missing `name` and `help`; within the modelled fragment it never raises
(it is a total function). -/
theorem c6_missing_metadata_defaults (c : SrcClass)
    (h1 : classQualifies c = true) (h2 : c.attrName = none) (h3 : c.attrHelp = none) :
    getPluginInfo ⟨[SrcItem.classDef c]⟩ = ⟨"", none, none⟩ := by
  simp [getPluginInfo, h1, h2, h3]

/-- Witness for C6's theorem at the concrete `noMetaClass`. -/
theorem c6_missing_metadata_defaults_witness :
    classQualifies noMetaClass = true ∧ noMetaClass.attrName = none ∧
    noMetaClass.attrHelp = none ∧
    getPluginInfo ⟨[SrcItem.classDef noMetaClass]⟩ = ⟨"", none, none⟩ :=
  ⟨rfl, rfl, rfl, c6_missing_metadata_defaults noMetaClass rfl rfl rfl⟩

/-- C7: `unregister_plugin` on a plugin absent from the active list raises
`ValueError` (Python `list.remove` on a missing element) rather than
silently succeeding. -/
theorem c7_unregister_absent_raises (p : Plugin) (st : PMState)
    (h : p ∉ st.activePlugins) :
    (unregisterPluginRun p st).2 = some "ValueError" := by
  simp [unregisterPluginRun, (listRemove_eq_none st.activePlugins p).mpr h]

/-- Witness for C7's theorem: unregistering `pingPlugin` from the empty
registry raises. -/
theorem c7_unregister_absent_raises_witness :
    pingPlugin ∉ initialState.activePlugins ∧
    (unregisterPluginRun pingPlugin initialState).2 = some "ValueError" :=
  ⟨by simp [initialState],
   c7_unregister_absent_raises pingPlugin initialState (by simp [initialState])⟩

/-- C10: when `unregister_plugin` is called with a plugin absent from the
active list, the client's remove-handler operation has already run for
every callback of the argument before the `ValueError` is raised: the
returned state keeps the handler-table mutation while the registry is
unchanged, alongside the error. -/
theorem c10_unregister_absent_not_atomic (p : Plugin) (st : PMState)
    (h : p ∉ st.activePlugins) :
    unregisterPluginRun p st =
      (⟨st.activePlugins,
        p.callbacks.foldl (fun acc cb => removeEventHandler acc cb.callback)
          st.clientHandlers⟩,
       some "ValueError") := by
  simp [unregisterPluginRun, (listRemove_eq_none st.activePlugins p).mpr h]

/-- Witness for C10's theorem: `pingPlugin` is absent from
`⟨[], [0]⟩`, yet unregistering it removes the table entry `0` (its
callback's handle) and raises. -/
theorem c10_unregister_absent_not_atomic_witness :
    pingPlugin ∉ (PMState.mk [] [0]).activePlugins ∧
    unregisterPluginRun pingPlugin ⟨[], [0]⟩ = (⟨[], []⟩, some "ValueError") :=
  ⟨by simp,
   (c10_unregister_absent_not_atomic pingPlugin ⟨[], [0]⟩ (by simp)).trans rfl⟩

/-- C9: `register_all` performs no deduplication: running it twice over the
same discovered files (all loading successfully) appends the same plugin
records and the same handler entries a second time, doubling the additions;
in particular the active list grows by `2 * ds.length`. -/
theorem c9_register_all_not_idempotent (root : String) (ds : List DiscoveredFile)
    (st : PMState) (h : allOk ds) :
    (registerAllRun root ds (registerAllRun root ds st).1).1.activePlugins
        = st.activePlugins ++ pluginsOf root ds ++ pluginsOf root ds ∧
    (registerAllRun root ds (registerAllRun root ds st).1).1.clientHandlers
        = st.clientHandlers ++ handlersOf root ds ++ handlersOf root ds ∧
    (registerAllRun root ds (registerAllRun root ds st).1).1.activePlugins.length
        = st.activePlugins.length + 2 * ds.length := by
  rw [registerAllRun_allOk root ds st h]
  rw [registerAllRun_allOk root ds _ h]
  refine ⟨by simp [List.append_assoc], by simp [List.append_assoc], ?_⟩
  simp [pluginsOf_length root ds h]
  omega

/-- Witness for C9's theorem: registering `[pingEntry]` twice from the
empty state. -/
theorem c9_register_all_not_idempotent_witness :
    allOk [pingEntry] ∧
    (registerAllRun "/abs/plugins" [pingEntry]
        (registerAllRun "/abs/plugins" [pingEntry] initialState).1).1.activePlugins
      = initialState.activePlugins ++ pluginsOf "/abs/plugins" [pingEntry]
          ++ pluginsOf "/abs/plugins" [pingEntry] := by
  have h : allOk [pingEntry] := by
    intro d hd
    rw [List.mem_singleton] at hd
    subst hd
    exact ⟨pingFile, rfl⟩
  exact ⟨h, (c9_register_all_not_idempotent "/abs/plugins" [pingEntry] initialState h).1⟩

/-- C8 counterexample: the states the claim quantifies over include the
post-state of `unregister_plugin` called with a `Plugin` value absent from
the active list (the raising call of C7/C10).  Calling it with
`roguePlugin` — not active, but sharing `pingPlugin`'s callback handle —
removes the handler table entry while `pingPlugin` stays active, leaving a
Callback with no live table entry: the invariant fails in a reachable
state. -/
theorem c8_counterexample_orphaned_callback :
    ReachableAny (unregisterPluginRun roguePlugin
        (registerAllRun "/abs/plugins" [pingEntry] initialState).1).1 ∧
    Invb (unregisterPluginRun roguePlugin
        (registerAllRun "/abs/plugins" [pingEntry] initialState).1).1 = false :=
  ⟨ReachableAny.unregisterPlugin roguePlugin _
     (ReachableAny.registerAll "/abs/plugins" [pingEntry] initialState ReachableAny.init),
   by rfl⟩

/-- C8 (amended): in every state reachable by `register_all`,
`unregister_all`, and `unregister_plugin` applied only to plugins present
in the active list, every Callback of an active plugin has a live entry in
the host client's handler table and every table entry is the callback of
some active plugin. -/
theorem c8_invariant_restricted (st : PMState) (h : ReachableR st) : Invb st = true :=
  Invb_of_MInv st (MInv_of_reachableR st h)

/-- Witness for C8's theorem: the state after one registration pass over
`[pingEntry]` is reachable and satisfies the invariant. -/
theorem c8_invariant_restricted_witness :
    ReachableR (registerAllRun "/abs/plugins" [pingEntry] initialState).1 ∧
    Invb (registerAllRun "/abs/plugins" [pingEntry] initialState).1 = true :=
  ⟨ReachableR.registerAll "/abs/plugins" [pingEntry] initialState ReachableR.init,
   c8_invariant_restricted _
     (ReachableR.registerAll "/abs/plugins" [pingEntry] initialState ReachableR.init)⟩

end Kantek
